import Mathlib

/-!
# Verification of the tool-dispatch and retry layer (`src/tools/others.js`)

Shallow embedding of the repository's single source module:

* `retryOperation` — bounded retry with fixed delay.  The JS `for` loop is
  embedded as a fuel-indexed recursion whose fuel is the exact number of
  iterations the loop can perform; invocations of the wrapped operation and the
  executed `delay(delayMs)` calls are recorded in an explicit trace.
* `getYoutubeTranscript`, `calculate` — the two registered handlers.  Their
  external collaborators (`YoutubeTranscript.fetchTranscript`, mathjs
  `evaluate(..).toString()`) are oracle parameters bundled in `ExtServices`.
* `manageToolCall` — the dispatcher.  JS property access on the object literal
  `tool_calls_to_function` also reaches the properties inherited from
  `Object.prototype`, all of which read as truthy values; the embedding keeps
  this fallback (`registryLookup`).
* `processFunctionCallsNames` — the call-summary formatter, built on
  embeddings of the JS string primitives (`split`, `join`, `charAt`,
  `toUpperCase`, `slice`, `isNaN` via `Number(string)` coercion).

Strings are modelled on their character lists (the source only manipulates
ASCII data).  JS exceptions are `JsError`; `async` plus `throw` become
`Except JsError`.
-/

/-- A JS exception: either an explicitly constructed `Error` or a runtime
`TypeError` (e.g. reading a property of `undefined`). -/
inductive JsError where
  | error (msg : String)
  | typeError (msg : String)
deriving Repr, DecidableEq

instance {ε α : Type} [DecidableEq ε] [DecidableEq α] : DecidableEq (Except ε α) :=
  fun a b =>
    match a, b with
    | .ok x, .ok y =>
      if h : x = y then isTrue (by rw [h]) else isFalse (by simp [h])
    | .error x, .error y =>
      if h : x = y then isTrue (by rw [h]) else isFalse (by simp [h])
    | .ok _, .error _ => isFalse (by simp)
    | .error _, .ok _ => isFalse (by simp)

/-- `err.message` for either kind of error. -/
def JsError.message : JsError → String
  | .error m => m
  | .typeError m => m

/-- JS string conversion of an error (template-literal `${error}`). -/
def JsError.toDisplay : JsError → String
  | .error m => "Error: " ++ m
  | .typeError m => "TypeError: " ++ m

/-! ## RetryExecutor (`retryOperation`, lines 19–44) -/

/-- The observable outcome of one `retryOperation` run: the settled value or
thrown error, together with how many times `fn` was invoked and the list of
executed waits (one entry per `await delay(delayMs)`, holding that delay). -/
structure RetryResult (α : Type) where
  outcome : Except JsError α
  invocations : Nat
  waits : List Nat
deriving Repr

/-- The aggregate error text of the final `throw new Error(...)` in
`retryOperation`. -/
def aggregateMessage (maxRetries : Int) (msg : String) : String :=
  "Operation failed after " ++ toString maxRetries ++ " attempts: " ++ msg

/-- Number of iterations the loop `for (attempt = 0; attempt <= maxRetries;
attempt++)` performs when no early `return` fires. -/
def retryNumIters (maxRetries : Int) : Nat :=
  if maxRetries < 0 then 0 else maxRetries.toNat + 1

/-- The loop body of `retryOperation`, indexed by the remaining iteration
fuel.  `fn i` is the settled result of the `i`-th invocation of the wrapped
operation (JS `await fn()` at loop variable `attempt = i`).  `err` is the JS
variable `error` (`none` = still `undefined`).  When the fuel runs out the
code past the loop runs: `error.message` on `undefined` raises a `TypeError`,
otherwise the aggregate `Error` is thrown. -/
def retryAux {α : Type} (fn : Nat → Except JsError α) (maxRetries : Int)
    (delayMs : Nat) :
    Nat → Nat → Option JsError → Nat → List Nat → RetryResult α
  | 0, _attempt, err, invs, waits =>
    match err with
    | some e => ⟨.error (.error (aggregateMessage maxRetries e.message)), invs, waits⟩
    | none =>
      ⟨.error (.typeError "Cannot read properties of undefined (reading 'message')"),
        invs, waits⟩
  | remaining + 1, attempt, _err, invs, waits =>
    match fn attempt with
    | .ok v => ⟨.ok v, invs + 1, waits⟩
    | .error e =>
      if (attempt : Int) < maxRetries then
        retryAux fn maxRetries delayMs remaining (attempt + 1) (some e) (invs + 1)
          (waits ++ [delayMs])
      else
        retryAux fn maxRetries delayMs remaining (attempt + 1) (some e) (invs + 1) waits

/-- `retryOperation(fn, maxRetries, delayMs)` (JS default `delayMs = 1000`;
the delay is always passed explicitly here). -/
def retryOperation {α : Type} (fn : Nat → Except JsError α) (maxRetries : Int)
    (delayMs : Nat) : RetryResult α :=
  retryAux fn maxRetries delayMs (retryNumIters maxRetries) 0 none 0 []

/-! ## Data model of the dispatcher (`src/tools/others.js`, lines 84–214) -/

/-- A JS value as far as the dispatcher observes one: the handlers only ever
store the (possibly `undefined`) argument field and strings into response
records, and an inherited `Object.prototype` member call yields some value. -/
inductive JsVal where
  | undef
  | str (s : String)
deriving Repr, DecidableEq

/-- The argument object of a tool call.  Reading a field that the caller did
not supply yields JS `undefined` (`JsVal.undef`). -/
structure Args where
  url : JsVal
  equation : JsVal
deriving Repr, DecidableEq

/-- A `response` record: the key/value pairs placed in the object literal, in
source order (e.g. `{url, content}`, `{equation, content}`, `{name, content}`). -/
abbrev Response := List (String × JsVal)

/-- The `functionResponse` record of an envelope element. -/
structure FunctionResponse where
  name : String
  response : Response
deriving Repr, DecidableEq

/-- One element of a `function_call_result_message` array. -/
structure EnvelopeItem where
  functionResponse : FunctionResponse
deriving Repr, DecidableEq

/-- A handler's return value: the array `function_call_result_message`. -/
abbrev Envelope := List EnvelopeItem

/-- A tool call as dispatched: `{name, args}`; `args = none` models a call
whose `args` is `undefined` (or `null`). -/
structure ToolCall where
  name : String
  args : Option Args
deriving Repr, DecidableEq

/-- The external collaborators, out of scope of this module and passed as
oracles: `YoutubeTranscript.fetchTranscript(url)` (its settled transcript is
kept in already-serialized form), mathjs `evaluate(equation).toString()`, and
the behaviour of invoking a member inherited from `Object.prototype` with
`this = undefined` (see `registryLookup`). -/
structure ExtServices where
  fetchTranscript : JsVal → Except JsError String
  evaluate : JsVal → Except JsError String
  protoCall : String → Option Args → String → Except JsError JsVal

/-- `getYoutubeTranscript(args, name)` (lines 92–124).  The read `args.url`
happens before the `try`, so `args` being `undefined`/`null` raises a
`TypeError` that nothing catches; inside the `try`, any fetch failure is
converted into an error-text envelope. -/
def getYoutubeTranscript (fetchTranscript : JsVal → Except JsError String)
    (args : Option Args) (name : String) : Except JsError Envelope :=
  match args with
  | none => .error (.typeError "Cannot read properties of undefined (reading 'url')")
  | some a =>
    let url := a.url
    match fetchTranscript url with
    | .ok transcript =>
      .ok [⟨⟨name, [("url", url), ("content", .str transcript)]⟩⟩]
    | .error e =>
      let errorMessage := "Error fetching the transcript: " ++ e.toDisplay
      .ok [⟨⟨name, [("url", url), ("content", .str errorMessage)]⟩⟩]

/-- `calculate(args, name)` (lines 134–169).  Same shape as
`getYoutubeTranscript`: `args.equation` is read before the `try`; evaluation
failures are caught and serialized into `content`. -/
def calculate (evaluate : JsVal → Except JsError String)
    (args : Option Args) (name : String) : Except JsError Envelope :=
  match args with
  | none => .error (.typeError "Cannot read properties of undefined (reading 'equation')")
  | some a =>
    let equation := a.equation
    match evaluate equation with
    | .ok result =>
      .ok [⟨⟨name, [("equation", equation), ("content", .str result)]⟩⟩]
    | .error e =>
      let errorMessage := "Error calculating the equation: " ++ e.toDisplay
      .ok [⟨⟨name, [("equation", equation), ("content", .str errorMessage)]⟩⟩]

/-- What dispatching can produce on its non-throwing paths: an envelope (from
a registered handler or the not-found branch), or — when an
`Object.prototype` member leaked through the lookup and was invoked — an
arbitrary JS value that is not an envelope at all. -/
inductive DispatchResult where
  | envelope (env : Envelope)
  | other (v : JsVal)
deriving Repr, DecidableEq

/-- Outcome of the property read `tool_calls_to_function[functionName]`. -/
inductive Lookup where
  | ownGetYoutubeTranscript
  | ownCalculate
  | inheritedFromObjectPrototype (prop : String)
  | notFound
deriving Repr, DecidableEq

/-- The property names every object literal inherits from `Object.prototype`
(ECMAScript, Annex B included).  Reading any of them on
`tool_calls_to_function` yields a truthy value (a built-in function, or
`Object.prototype` itself for the `__proto__` accessor), so the dispatcher's
`if (func)` test passes for them. -/
def objectPrototypeProps : List String :=
  ["constructor", "hasOwnProperty", "isPrototypeOf", "propertyIsEnumerable",
   "toLocaleString", "toString", "valueOf", "__proto__", "__defineGetter__",
   "__defineSetter__", "__lookupGetter__", "__lookupSetter__"]

/-- JS property access `tool_calls_to_function[functionName]`: an own key
(`get_youtube_transcript`, `calculate`), else a property inherited from
`Object.prototype`, else `undefined`. -/
def registryLookup (functionName : String) : Lookup :=
  if functionName = "get_youtube_transcript" then .ownGetYoutubeTranscript
  else if functionName = "calculate" then .ownCalculate
  else if functionName ∈ objectPrototypeProps then
    .inheritedFromObjectPrototype functionName
  else .notFound

/-- `manageToolCall(toolCall)` (lines 177–214).  A truthy lookup result is
invoked as `func(args, functionName)` with no surrounding `try`; an
`undefined` lookup yields the synthesized error envelope. -/
def manageToolCall (ext : ExtServices) (toolCall : ToolCall) : Except JsError DispatchResult :=
  let functionName := toolCall.name
  match registryLookup functionName with
  | .ownGetYoutubeTranscript =>
    (getYoutubeTranscript ext.fetchTranscript toolCall.args functionName).map .envelope
  | .ownCalculate =>
    (calculate ext.evaluate toolCall.args functionName).map .envelope
  | .inheritedFromObjectPrototype prop =>
    (ext.protoCall prop toolCall.args functionName).map .other
  | .notFound =>
    let errorMessage := "No function found for " ++ functionName
    .ok (.envelope
      [⟨⟨functionName, [("name", .str functionName), ("content", .str errorMessage)]⟩⟩])

/-- Does a response record carry a `content` field? -/
def hasContentField (r : Response) : Bool :=
  r.any (fun kv => kv.1 == "content")

/-- A concrete environment of the external collaborators, used to evaluate
the embedding at concrete inputs.  Its `protoCall` follows ECMAScript for the
one member the concrete theorems invoke: `Object.prototype.toString` called
with `this = undefined` returns `"[object Undefined]"`; the remaining members
coerce their `this` value with `ToObject`, which throws on `undefined`. -/
def extW : ExtServices :=
  ⟨fun _ => .ok "TRANSCRIPT",
   fun _ => .ok "4",
   fun prop _ _ =>
     if prop = "toString" then .ok (.str "[object Undefined]")
     else .error (.typeError "Cannot convert undefined or null to object")⟩

/-! ## CallSummaryFormatter (`processFunctionCallsNames`, lines 224–263)

The JS string primitives the function uses, embedded on character lists. -/

/-- JS `String.prototype.split` with a one-character separator, accumulator
style (`acc` holds the current field, reversed). -/
def jsSplitAux (sep : Char) : List Char → List Char → List String
  | [], acc => [String.mk acc.reverse]
  | c :: cs, acc =>
    if c = sep then String.mk acc.reverse :: jsSplitAux sep cs []
    else jsSplitAux sep cs (c :: acc)

/-- JS `s.split(sep)` for a single-character separator (`"".split` gives
`[""]`, like in JS). -/
def jsSplit (sep : Char) (s : String) : List String :=
  jsSplitAux sep s.data []

/-- JS `Array.prototype.join(sep)`. -/
def jsJoin (sep : String) : List String → String
  | [] => ""
  | [x] => x
  | x :: y :: xs => x ++ sep ++ jsJoin sep (y :: xs)

/-- JS `s.toUpperCase()` (ASCII case mapping; tool-name data is ASCII). -/
def jsToUpperCase (s : String) : String :=
  String.mk (s.data.map Char.toUpper)

/-- JS `s.charAt(i)`: the one-character string at index `i`, or `""` past the
end. -/
def jsCharAt (s : String) (i : Nat) : String :=
  match s.data.drop i with
  | [] => ""
  | c :: _ => String.mk [c]

/-- JS `s.slice(start)` for `start ≥ 0`. -/
def jsSliceFrom (s : String) (start : Nat) : String :=
  String.mk (s.data.drop start)

/-- JS `s.slice(0, stop)` for `stop ≥ 0`. -/
def jsSliceTo (s : String) (stop : Nat) : String :=
  String.mk (s.data.take stop)

/-- JS `s.length` (the strings involved are ASCII, so code units =
characters). -/
def jsLength (s : String) : Nat :=
  s.data.length

/-- ASCII whitespace stripped by JS `Number(string)` coercion. -/
def jsIsWhitespace (c : Char) : Bool :=
  c = ' ' || c = '\t' || c = '\n' || c = '\r' || c = '\x0b' || c = '\x0c'

/-- At least one character, all decimal digits. -/
def allDigits1 (cs : List Char) : Bool :=
  !cs.isEmpty && cs.all Char.isDigit

/-- Digits with an optional leading sign (the tail of an exponent part). -/
def jsSignedDigits : List Char → Bool
  | '+' :: rest => allDigits1 rest
  | '-' :: rest => allDigits1 rest
  | rest => allDigits1 rest

/-- An optional trailing exponent part (`e`/`E`, optional sign, digits). -/
def jsExponentPart : List Char → Bool
  | [] => true
  | 'e' :: rest => jsSignedDigits rest
  | 'E' :: rest => jsSignedDigits rest
  | _ => false

/-- ECMAScript `StrUnsignedDecimalLiteral`: `Infinity`, `digits [. digits]
[exp]`, or `. digits [exp]`. -/
def jsUnsignedDecimal (cs : List Char) : Bool :=
  if cs = "Infinity".data then true
  else
    let ds := cs.takeWhile Char.isDigit
    let rest := cs.dropWhile Char.isDigit
    if !ds.isEmpty then
      match rest with
      | [] => true
      | '.' :: r2 => jsExponentPart (r2.dropWhile Char.isDigit)
      | _ => jsExponentPart rest
    else
      match cs with
      | '.' :: r2 =>
        !(r2.takeWhile Char.isDigit).isEmpty && jsExponentPart (r2.dropWhile Char.isDigit)
      | _ => false

/-- `StrDecimalLiteral`: optional sign, then an unsigned decimal. -/
def jsSignedDecimal : List Char → Bool
  | '+' :: rest => jsUnsignedDecimal rest
  | '-' :: rest => jsUnsignedDecimal rest
  | cs => jsUnsignedDecimal cs

/-- Hexadecimal digit. -/
def jsIsHexDigit (c : Char) : Bool :=
  c.isDigit || ('a' ≤ c && c ≤ 'f') || ('A' ≤ c && c ≤ 'F')

/-- Octal digit. -/
def jsIsOctalDigit (c : Char) : Bool :=
  '0' ≤ c && c ≤ '7'

/-- Binary digit. -/
def jsIsBinaryDigit (c : Char) : Bool :=
  c = '0' || c = '1'

/-- ECMAScript `StrNumericLiteral`: a decimal literal or a `0x`/`0o`/`0b`
non-decimal integer literal (no sign allowed on the latter). -/
def jsNumericLiteral : List Char → Bool
  | '0' :: c :: rest =>
    if c = 'x' || c = 'X' then !rest.isEmpty && rest.all jsIsHexDigit
    else if c = 'o' || c = 'O' then !rest.isEmpty && rest.all jsIsOctalDigit
    else if c = 'b' || c = 'B' then !rest.isEmpty && rest.all jsIsBinaryDigit
    else jsSignedDecimal ('0' :: c :: rest)
  | cs => jsSignedDecimal cs

/-- JS `isNaN(word)` for a string argument: `Number(word)` is `NaN` exactly
when the whitespace-trimmed text is non-empty and not a numeric literal
(`Number("") = 0`, so the empty string is *not* NaN). -/
def jsIsNaN (w : String) : Bool :=
  let cs := ((w.data.dropWhile jsIsWhitespace).reverse.dropWhile jsIsWhitespace).reverse
  if cs.isEmpty then false else !jsNumericLiteral cs

/-- A record of the formatter's input array: `{name, args}`, where `name` may
be `undefined` and `args` is `undefined` or an object whose values are kept in
their `String(value)` rendering (the only view the formatter takes of them). -/
structure FunctionCallRec where
  name : Option String
  args : Option (List (String × String))
deriving Repr, DecidableEq

/-- The per-word arrow function inside `processFunctionCallsNames`:
`isNaN(word) ? word.charAt(0).toUpperCase() + word.slice(1) : word`
(capitalize unless the word parses as a number). -/
def formatWord (word : String) : String :=
  if jsIsNaN word then jsToUpperCase (jsCharAt word 0) ++ jsSliceFrom word 1
  else word

/-- `formattedName`: split the name on `_`, format each word, join with
spaces. -/
def formatCallName (name : String) : String :=
  jsJoin " " ((jsSplit '_' name).map formatWord)

/-- The per-entry arrow function of `formattedArgs`: render `key: value`,
truncating a value longer than 500 characters to its first 500 plus `"..."`. -/
def formatArgEntry (kv : String × String) : String :=
  let stringValue := kv.2
  let truncatedValue :=
    if jsLength stringValue > 500 then jsSliceTo stringValue 500 ++ "..." else stringValue
  kv.1 ++ ": " ++ truncatedValue

/-- `formattedArgs`: `tc.args ? Object.entries(tc.args).map(..).join(", ") : ""`. -/
def formatCallArgs : Option (List (String × String)) → String
  | some entries => jsJoin ", " (entries.map formatArgEntry)
  | none => ""

/-- The per-call arrow function of `processFunctionCallsNames`.  JS
`if (!tc.name) return ""` fires on `undefined` and on the empty string (both
falsy); otherwise the call renders as the formatted name, with
`" (<args>)"` appended when `formattedArgs` is non-empty (truthy). -/
def processOneCall (tc : FunctionCallRec) : String :=
  match tc.name with
  | none => ""
  | some name =>
    if name = "" then ""
    else
      let formattedName := formatCallName name
      let formattedArgs := formatCallArgs tc.args
      if formattedArgs ≠ "" then formattedName ++ " (" ++ formattedArgs ++ ")"
      else formattedName

/-- `processFunctionCallsNames(functionCalls)` (lines 224–263): map each call
to its rendering, drop the falsy (empty) ones, join with `", "`. -/
def processFunctionCallsNames (functionCalls : List FunctionCallRec) : String :=
  jsJoin ", " ((functionCalls.map processOneCall).filter (fun n => n != ""))

/-! Spec-side rendering, written from the words of the specification (§4.4)
for the refinement comparison: title-case each underscore-separated token
unless it parses as a pure number, append a parenthesized `key: value` list
when the call has (at least one) argument, exclude empty contributions, join
with `", "`.  A call "has no name" when the field is `undefined` or holds the
empty string (no name content). -/

/-- Spec side: capitalize the first character of a token, numeric tokens
unchanged. -/
def titleCaseToken (token : String) : String :=
  if jsIsNaN token = false then token
  else
    match token.data with
    | [] => ""
    | c :: rest => String.mk (c.toUpper :: rest)

/-- Spec side: the space-separated, title-cased phrase of a tool name. -/
def titleCasePhrase (name : String) : String :=
  jsJoin " " ((jsSplit '_' name).map titleCaseToken)

/-- Spec side: one `key: value` item; a value longer than 500 characters is
truncated to its first 500 characters plus an ellipsis marker. -/
def renderArgEntry (kv : String × String) : String :=
  kv.1 ++ ": " ++
    (if 500 < kv.2.data.length then String.mk (kv.2.data.take 500) ++ "..." else kv.2)

/-- Spec side: one call's contribution. -/
def summarizeCallSpec (tc : FunctionCallRec) : String :=
  match tc.name with
  | none => ""
  | some name =>
    if name = "" then ""
    else
      match tc.args with
      | some (e :: es) =>
        titleCasePhrase name ++ " (" ++ jsJoin ", " ((e :: es).map renderArgEntry) ++ ")"
      | _ => titleCasePhrase name

/-- Spec side: the whole summary. -/
def summarizeSpec (calls : List FunctionCallRec) : String :=
  jsJoin ", " ((calls.map summarizeCallSpec).filter (fun n => n != ""))

/-! ## Theorems: RetryExecutor -/

/-- Helper: a run in which every attempt fails exhausts its fuel, invoking the
operation once per iteration, waiting before every iteration except the last,
and ends in the aggregate error built from the last failure. -/
theorem retryAux_allFail {α : Type} (fails : Nat → JsError) (maxRetries : Int)
    (delayMs : Nat) :
    ∀ (remaining attempt invs : Nat) (waits : List Nat) (err : Option JsError),
      (attempt : Int) + remaining = maxRetries + 1 → 1 ≤ remaining →
      retryAux (α := α) (fun i => .error (fails i)) maxRetries delayMs remaining
          attempt err invs waits
        = ⟨.error (.error (aggregateMessage maxRetries
              (fails (attempt + (remaining - 1))).message)),
           invs + remaining, waits ++ List.replicate (remaining - 1) delayMs⟩ := by
  intro remaining
  induction remaining with
  | zero => intro _ _ _ _ _ h2; omega
  | succ r ih =>
    intro attempt invs waits err hinv _
    simp only [retryAux]
    by_cases hlt : (attempt : Int) < maxRetries
    · rw [if_pos hlt]
      have hr : 1 ≤ r := by omega
      obtain ⟨r', rfl⟩ : ∃ r', r = r' + 1 := ⟨r - 1, by omega⟩
      rw [ih (attempt + 1) (invs + 1) (waits ++ [delayMs]) (some (fails attempt))
        (by push_cast at hinv ⊢; omega) (by omega)]
      simp only [Nat.add_sub_cancel, RetryResult.mk.injEq, List.append_assoc,
        List.singleton_append]
      refine ⟨?_, by omega, ?_⟩
      · have h1 : attempt + 1 + r' = attempt + (r' + 1) := by omega
        rw [h1]
      · rw [← List.replicate_succ]
    · rw [if_neg hlt]
      have hr0 : r = 0 := by omega
      subst hr0
      simp [retryAux]

/-- C3: an operation that fails on every attempt, run with `maxAttempts = N ≥ 0`,
is invoked exactly `N + 1` times, produces exactly `N` waits of `delayMs` each,
and the run fails (propagating to the caller) with the aggregate error naming
the reported attempt count `N` and the message of the last observed failure. -/
theorem claim_c3_retry_all_fail {α : Type} (fails : Nat → JsError) (N delayMs : Nat) :
    retryOperation (α := α) (fun i => .error (fails i)) N delayMs
      = ⟨.error (.error (aggregateMessage N (fails N).message)),
         N + 1, List.replicate N delayMs⟩ := by
  unfold retryOperation
  rw [show retryNumIters (N : Int) = N + 1 by simp [retryNumIters]]
  rw [retryAux_allFail fails N delayMs (N + 1) 0 0 [] none (by push_cast; omega)
    (by omega)]
  simp

/-- Helper: a run whose first success is at offset `k` from the current
attempt returns that success after `k + 1` invocations and `k` further waits. -/
theorem retryAux_firstSuccess {α : Type} (fn : Nat → Except JsError α)
    (maxRetries : Int) (delayMs : Nat) (v : α) :
    ∀ (k remaining attempt invs : Nat) (waits : List Nat) (err : Option JsError),
      k < remaining → (attempt : Int) + remaining = maxRetries + 1 →
      (∀ i, i < k → ∃ e, fn (attempt + i) = .error e) →
      fn (attempt + k) = .ok v →
      retryAux fn maxRetries delayMs remaining attempt err invs waits
        = ⟨.ok v, invs + (k + 1), waits ++ List.replicate k delayMs⟩ := by
  intro k
  induction k with
  | zero =>
    intro remaining attempt invs waits err hk hinv _ hok
    obtain ⟨r, rfl⟩ : ∃ r, remaining = r + 1 := ⟨remaining - 1, by omega⟩
    rw [Nat.add_zero] at hok
    simp [retryAux, hok]
  | succ k' ih =>
    intro remaining attempt invs waits err hk hinv hfail hok
    obtain ⟨r, rfl⟩ : ∃ r, remaining = r + 1 := ⟨remaining - 1, by omega⟩
    obtain ⟨e, he⟩ := hfail 0 (by omega)
    rw [Nat.add_zero] at he
    have hlt : (attempt : Int) < maxRetries := by omega
    rw [show retryAux fn maxRetries delayMs (r + 1) attempt err invs waits
        = retryAux fn maxRetries delayMs r (attempt + 1) (some e) (invs + 1)
            (waits ++ [delayMs]) by
      simp only [retryAux, he, if_pos hlt]]
    rw [ih r (attempt + 1) (invs + 1) (waits ++ [delayMs]) (some e) (by omega)
      (by push_cast at hinv ⊢; omega)
      (fun i hi => by
        obtain ⟨e', he'⟩ := hfail (i + 1) (by omega)
        exact ⟨e', by rw [show attempt + 1 + i = attempt + (i + 1) by omega]; exact he'⟩)
      (by rw [show attempt + 1 + k' = attempt + (k' + 1) by omega]; exact hok)]
    simp only [RetryResult.mk.injEq, List.append_assoc, List.singleton_append,
      ← List.replicate_succ]
    exact ⟨trivial, by omega, trivial⟩

/-- C4: an operation whose attempts `0 .. k-1` fail and whose attempt `k`
(`k ≤ maxAttempts`, 0-indexed) succeeds with `v` makes exactly `k + 1`
invocations and exactly `k` waits of `delayMs` each, and the run returns `v`;
nothing runs after the success. -/
theorem claim_c4_retry_first_success {α : Type} (fn : Nat → Except JsError α)
    (N k delayMs : Nat) (v : α) (hkN : k ≤ N)
    (hfail : ∀ i, i < k → ∃ e, fn i = .error e) (hok : fn k = .ok v) :
    retryOperation fn N delayMs = ⟨.ok v, k + 1, List.replicate k delayMs⟩ := by
  unfold retryOperation
  rw [show retryNumIters (N : Int) = N + 1 by simp [retryNumIters]]
  rw [retryAux_firstSuccess fn N delayMs v k (N + 1) 0 0 [] none (by omega)
    (by push_cast; omega) (fun i hi => by simpa using hfail i hi) (by simpa using hok)]
  simp

/-- Witness for C4 at a concrete operation: first attempt fails, second
succeeds with `7`; two invocations, one wait of `5`. -/
theorem claim_c4_retry_first_success_witness :
    retryOperation (fun i => if i = 0 then .error (.error "boom") else .ok 7) 3 5
      = ⟨.ok 7, 2, [5]⟩ :=
  claim_c4_retry_first_success _ 3 1 5 7 (by omega)
    (fun i hi => ⟨.error "boom", by interval_cases i; rfl⟩) rfl

/-- C5: with `maxAttempts = 0` every operation is invoked exactly once and
there are no waits; the run returns the single attempt's result on success and
fails immediately (no delay) with the aggregate error on failure. -/
theorem claim_c5_zero_max_attempts {α : Type} (fn : Nat → Except JsError α)
    (delayMs : Nat) :
    (retryOperation fn 0 delayMs).invocations = 1 ∧
    (retryOperation fn 0 delayMs).waits = [] ∧
    (∀ v, fn 0 = .ok v → retryOperation fn 0 delayMs = ⟨.ok v, 1, []⟩) ∧
    (∀ e, fn 0 = .error e →
      retryOperation fn 0 delayMs
        = ⟨.error (.error (aggregateMessage 0 e.message)), 1, []⟩) := by
  cases h : fn 0 with
  | ok v =>
    refine ⟨?_, ?_, ?_, ?_⟩ <;>
      simp_all [retryOperation, retryNumIters, retryAux, h]
  | error e =>
    refine ⟨?_, ?_, ?_, ?_⟩ <;>
      simp_all [retryOperation, retryNumIters, retryAux, h]

/-- Witness for C5 at a concrete failing operation: one invocation, no wait,
immediate aggregate failure. -/
theorem claim_c5_zero_max_attempts_witness :
    retryOperation (fun _ => (.error (.error "boom") : Except JsError Nat)) 0 9
      = ⟨.error (.error (aggregateMessage 0 "boom")), 1, []⟩ :=
  (claim_c5_zero_max_attempts _ 9).2.2.2 (.error "boom") rfl

/-- C10: with any negative `maxRetries` the loop body never runs: the
operation is never invoked, there are no waits, and the function falls through
to the final `throw`, where `error.message` on the still-`undefined` error
variable raises a `TypeError` instead of the documented aggregate error. -/
theorem claim_c10_negative_max_retries {α : Type} (fn : Nat → Except JsError α)
    (maxRetries : Int) (delayMs : Nat) (h : maxRetries < 0) :
    retryOperation fn maxRetries delayMs
      = ⟨.error (.typeError "Cannot read properties of undefined (reading 'message')"),
         0, []⟩ := by
  unfold retryOperation
  rw [retryNumIters, if_pos h]
  rfl

/-- Witness for C10 at `maxRetries = -1`. -/
theorem claim_c10_negative_max_retries_witness :
    retryOperation (fun _ => (.ok 0 : Except JsError Nat)) (-1) 3
      = ⟨.error (.typeError "Cannot read properties of undefined (reading 'message')"),
         0, []⟩ :=
  claim_c10_negative_max_retries _ (-1) 3 (by decide)

/-! ## Theorems: ToolDispatcher -/

/-- C2: for each registered name the dispatcher invokes the resolved handler
with `(toolCall.args, toolCall.name)` and returns exactly the handler's own
result, unmodified; since no exception handling surrounds the call, a failure
raised by the handler propagates out of `manageToolCall` as-is. -/
theorem claim_c2_dispatch_registered (ext : ExtServices) (args : Option Args) :
    manageToolCall ext ⟨"get_youtube_transcript", args⟩
        = (getYoutubeTranscript ext.fetchTranscript args "get_youtube_transcript").map
            DispatchResult.envelope ∧
    manageToolCall ext ⟨"calculate", args⟩
        = (calculate ext.evaluate args "calculate").map DispatchResult.envelope ∧
    (∀ e, getYoutubeTranscript ext.fetchTranscript args "get_youtube_transcript"
        = .error e → manageToolCall ext ⟨"get_youtube_transcript", args⟩ = .error e) ∧
    (∀ e, calculate ext.evaluate args "calculate" = .error e →
        manageToolCall ext ⟨"calculate", args⟩ = .error e) := by
  refine ⟨?_, ?_, ?_, ?_⟩
  · simp [manageToolCall, registryLookup]
  · simp [manageToolCall, registryLookup]
  · intro e h
    simp [manageToolCall, registryLookup, h, Except.map]
  · intro e h
    simp [manageToolCall, registryLookup, h, Except.map]

/-- Witness for C2: a handler failure (missing `args`) propagating unchanged
out of the dispatcher. -/
theorem claim_c2_dispatch_registered_witness :
    manageToolCall extW ⟨"get_youtube_transcript", none⟩
      = .error (.typeError "Cannot read properties of undefined (reading 'url')") :=
  (claim_c2_dispatch_registered extW none).2.2.1
    (.typeError "Cannot read properties of undefined (reading 'url')") rfl

/-- C9: both registered handlers read their argument field (`args.url`,
`args.equation`) before entering their `try`, so a registered call whose
`args` is absent (`undefined`/`null`) raises a `TypeError` that propagates out
of `manageToolCall` instead of becoming an error-shaped envelope; with `args`
present, both handlers always settle with an envelope (they catch everything
else). -/
theorem claim_c9_missing_args_propagates (ext : ExtServices) :
    getYoutubeTranscript ext.fetchTranscript none "get_youtube_transcript"
        = .error (.typeError "Cannot read properties of undefined (reading 'url')") ∧
    calculate ext.evaluate none "calculate"
        = .error (.typeError "Cannot read properties of undefined (reading 'equation')") ∧
    manageToolCall ext ⟨"get_youtube_transcript", none⟩
        = .error (.typeError "Cannot read properties of undefined (reading 'url')") ∧
    manageToolCall ext ⟨"calculate", none⟩
        = .error (.typeError "Cannot read properties of undefined (reading 'equation')") ∧
    (∀ (a : Args) (nm : String), ∃ env,
      getYoutubeTranscript ext.fetchTranscript (some a) nm = .ok env) ∧
    (∀ (a : Args) (nm : String), ∃ env,
      calculate ext.evaluate (some a) nm = .ok env) := by
  refine ⟨rfl, rfl, ?_, ?_, ?_, ?_⟩
  · simp [manageToolCall, registryLookup, getYoutubeTranscript, Except.map]
  · simp [manageToolCall, registryLookup, calculate, Except.map]
  · intro a nm
    cases h : ext.fetchTranscript a.url with
    | ok t => simp only [getYoutubeTranscript, h]; exact ⟨_, rfl⟩
    | error e => simp only [getYoutubeTranscript, h]; exact ⟨_, rfl⟩
  · intro a nm
    cases h : ext.evaluate a.equation with
    | ok t => simp only [calculate, h]; exact ⟨_, rfl⟩
    | error e => simp only [calculate, h]; exact ⟨_, rfl⟩

/-- Helper: every envelope `getYoutubeTranscript` settles with — fetch success
or fetch failure alike — has exactly one element and carries a `content`
field. -/
theorem getYoutubeTranscript_ok_shape (f : JsVal → Except JsError String)
    (args : Option Args) (nm : String) (env : Envelope)
    (h : getYoutubeTranscript f args nm = .ok env) :
    env.length = 1 ∧
      ∀ item ∈ env, hasContentField item.functionResponse.response = true := by
  cases args with
  | none => simp [getYoutubeTranscript] at h
  | some a =>
    cases hf : f a.url with
    | ok t =>
      simp only [getYoutubeTranscript, hf] at h
      injection h with h
      subst h
      refine ⟨rfl, ?_⟩
      intro item hitem
      simp only [List.mem_singleton] at hitem
      subst hitem
      rfl
    | error e =>
      simp only [getYoutubeTranscript, hf] at h
      injection h with h
      subst h
      refine ⟨rfl, ?_⟩
      intro item hitem
      simp only [List.mem_singleton] at hitem
      subst hitem
      rfl

/-- Helper: the same shape fact for `calculate`. -/
theorem calculate_ok_shape (f : JsVal → Except JsError String)
    (args : Option Args) (nm : String) (env : Envelope)
    (h : calculate f args nm = .ok env) :
    env.length = 1 ∧
      ∀ item ∈ env, hasContentField item.functionResponse.response = true := by
  cases args with
  | none => simp [calculate] at h
  | some a =>
    cases hf : f a.equation with
    | ok t =>
      simp only [calculate, hf] at h
      injection h with h
      subst h
      refine ⟨rfl, ?_⟩
      intro item hitem
      simp only [List.mem_singleton] at hitem
      subst hitem
      rfl
    | error e =>
      simp only [calculate, hf] at h
      injection h with h
      subst h
      refine ⟨rfl, ?_⟩
      intro item hitem
      simp only [List.mem_singleton] at hitem
      subst hitem
      rfl

/-- C6: every envelope the three envelope-producing operations settle with —
on their success paths and their caught-error paths alike — is a one-element
sequence whose record carries a response with a `content` field present;
success and failure differ only in the `content` value, never in its
presence. -/
theorem claim_c6_content_always_present (ext : ExtServices) (args : Option Args)
    (nm : String) :
    (∀ env, getYoutubeTranscript ext.fetchTranscript args nm = .ok env →
      env.length = 1 ∧
        ∀ item ∈ env, hasContentField item.functionResponse.response = true) ∧
    (∀ env, calculate ext.evaluate args nm = .ok env →
      env.length = 1 ∧
        ∀ item ∈ env, hasContentField item.functionResponse.response = true) ∧
    (∀ (tc : ToolCall) env, manageToolCall ext tc = .ok (.envelope env) →
      env.length = 1 ∧
        ∀ item ∈ env, hasContentField item.functionResponse.response = true) := by
  refine ⟨fun env h => getYoutubeTranscript_ok_shape _ _ _ _ h,
    fun env h => calculate_ok_shape _ _ _ _ h, ?_⟩
  intro tc env h
  cases hl : registryLookup tc.name with
  | ownGetYoutubeTranscript =>
    simp only [manageToolCall, hl] at h
    cases hg : getYoutubeTranscript ext.fetchTranscript tc.args tc.name with
    | ok env' =>
      rw [hg] at h
      simp only [Except.map, Except.ok.injEq, DispatchResult.envelope.injEq] at h
      subst h
      exact getYoutubeTranscript_ok_shape _ _ _ _ hg
    | error e => rw [hg] at h; simp [Except.map] at h
  | ownCalculate =>
    simp only [manageToolCall, hl] at h
    cases hg : calculate ext.evaluate tc.args tc.name with
    | ok env' =>
      rw [hg] at h
      simp only [Except.map, Except.ok.injEq, DispatchResult.envelope.injEq] at h
      subst h
      exact calculate_ok_shape _ _ _ _ hg
    | error e => rw [hg] at h; simp [Except.map] at h
  | inheritedFromObjectPrototype prop =>
    simp only [manageToolCall, hl] at h
    cases hp : ext.protoCall prop tc.args tc.name with
    | ok v => rw [hp] at h; simp [Except.map] at h
    | error e => rw [hp] at h; simp [Except.map] at h
  | notFound =>
    simp only [manageToolCall, hl, Except.ok.injEq, DispatchResult.envelope.injEq] at h
    subst h
    refine ⟨rfl, ?_⟩
    intro item hitem
    simp only [List.mem_singleton] at hitem
    subst hitem
    rfl

/-- Witness for C6: the concrete envelope of a successful transcript fetch. -/
theorem claim_c6_content_always_present_witness :
    ([⟨⟨"x", [("url", JsVal.str "u"), ("content", JsVal.str "TRANSCRIPT")]⟩⟩] :
        Envelope).length = 1 ∧
    ∀ item ∈ ([⟨⟨"x", [("url", JsVal.str "u"), ("content", JsVal.str "TRANSCRIPT")]⟩⟩] :
        Envelope),
      hasContentField item.functionResponse.response = true :=
  (claim_c6_content_always_present extW (some ⟨.str "u", .undef⟩) "x").1 _ rfl

/-- C1 (counterexample): `"toString"` is not a key of the registry, yet the
dispatcher does not return the `"No function found for toString"` envelope.
JS property access finds the truthy `Object.prototype.toString` through the
prototype chain of the registry object literal, so `if (func)` succeeds and
the inherited function is invoked (with `this = undefined` it settles to the
plain string `"[object Undefined]"`, not an envelope). -/
theorem claim_c1_counterexample :
    manageToolCall extW ⟨"toString", none⟩ = .ok (.other (.str "[object Undefined]")) ∧
    manageToolCall extW ⟨"toString", none⟩
      ≠ .ok (.envelope [⟨⟨"toString", [("name", .str "toString"),
          ("content", .str "No function found for toString")]⟩⟩]) := by
  decide

/-- C1 (amended): for every toolCall whose name is neither a key of the
registry (`get_youtube_transcript`, `calculate`) nor the name of a property
inherited from `Object.prototype`, the dispatcher — without invoking any
handler (the result is the same for every environment of collaborators) —
returns the one-element envelope whose `response.content` is
`"No function found for " ++ name` and whose `response.name` and outer `name`
echo the call's name. -/
theorem claim_c1_unregistered_name_envelope (ext : ExtServices) (nm : String)
    (args : Option Args) (h1 : nm ≠ "get_youtube_transcript") (h2 : nm ≠ "calculate")
    (h3 : nm ∉ objectPrototypeProps) :
    manageToolCall ext ⟨nm, args⟩
      = .ok (.envelope [⟨⟨nm, [("name", .str nm),
          ("content", .str ("No function found for " ++ nm))]⟩⟩]) := by
  have hl : registryLookup nm = .notFound := by
    simp [registryLookup, h1, h2, h3]
  simp [manageToolCall, hl]

/-- Witness for the amended C1 at the unregistered name `"frobnicate"`. -/
theorem claim_c1_unregistered_name_envelope_witness :
    manageToolCall extW ⟨"frobnicate", none⟩
      = .ok (.envelope [⟨⟨"frobnicate", [("name", .str "frobnicate"),
          ("content", .str "No function found for frobnicate")]⟩⟩]) :=
  claim_c1_unregistered_name_envelope extW "frobnicate" none (by decide) (by decide)
    (by decide)

/-! ## Theorems: CallSummaryFormatter -/

/-- Helper: the source's per-word arrow function agrees with the spec-side
title-casing of a token. -/
theorem formatWord_eq (word : String) : formatWord word = titleCaseToken word := by
  unfold formatWord titleCaseToken
  cases hn : jsIsNaN word with
  | false => simp
  | true =>
    simp only [if_true, Bool.true_eq_false, if_false]
    obtain ⟨data⟩ := word
    cases data with
    | nil => rfl
    | cons c cs => rfl

/-- Helper: the source's name formatting agrees with the spec-side phrase. -/
theorem formatCallName_eq (name : String) : formatCallName name = titleCasePhrase name := by
  unfold formatCallName titleCasePhrase
  rw [funext formatWord_eq]

/-- Helper: the source's argument-entry rendering agrees with the spec side. -/
theorem formatArgEntry_eq (kv : String × String) : formatArgEntry kv = renderArgEntry kv := rfl

/-- Helper: a rendered `key: value` item is never the empty string. -/
theorem renderArgEntry_ne_empty (kv : String × String) : renderArgEntry kv ≠ "" := by
  unfold renderArgEntry
  intro h
  have h' : (kv.1.data ++ ": ".data) ++
      (if 500 < kv.2.data.length then String.mk (kv.2.data.take 500) ++ "..." else kv.2).data
      = ([] : List Char) := by
    simpa [String.data_append] using congrArg String.data h
  rcases List.append_eq_nil.mp h' with ⟨h1, -⟩
  rcases List.append_eq_nil.mp h1 with ⟨-, h2⟩
  exact absurd h2 (by decide)

/-- Helper: joining a list whose head is non-empty cannot give the empty
string. -/
theorem jsJoin_cons_ne_empty (sep x : String) (xs : List String) (hx : x ≠ "") :
    jsJoin sep (x :: xs) ≠ "" := by
  cases xs with
  | nil => simpa [jsJoin] using hx
  | cons y ys =>
    simp only [jsJoin]
    intro h
    have h' : (x.data ++ sep.data) ++ (jsJoin sep (y :: ys)).data = ([] : List Char) := by
      simpa [String.data_append] using congrArg String.data h
    rcases List.append_eq_nil.mp h' with ⟨h1, -⟩
    rcases List.append_eq_nil.mp h1 with ⟨h2, -⟩
    exact hx (String.ext_iff.mpr h2)

/-- Helper: per call, the source rendering agrees with the spec-side
rendering. -/
theorem processOneCall_eq (tc : FunctionCallRec) :
    processOneCall tc = summarizeCallSpec tc := by
  obtain ⟨nameOpt, argsOpt⟩ := tc
  cases nameOpt with
  | none => rfl
  | some name =>
    by_cases hname : name = ""
    · subst hname; rfl
    · simp only [processOneCall, summarizeCallSpec, if_neg hname]
      cases argsOpt with
      | none =>
        simp only [formatCallArgs]
        rw [if_neg (by simp)]
        exact formatCallName_eq name
      | some entries =>
        cases entries with
        | nil =>
          simp only [formatCallArgs, List.map_nil, jsJoin]
          rw [if_neg (by simp)]
          exact formatCallName_eq name
        | cons e es =>
          have hmap : formatArgEntry = renderArgEntry := funext formatArgEntry_eq
          have hne : formatCallArgs (some (e :: es)) ≠ "" := by
            simp only [formatCallArgs, List.map_cons]
            exact jsJoin_cons_ne_empty ", " _ _
              (by rw [formatArgEntry_eq]; exact renderArgEntry_ne_empty e)
          rw [if_pos hne]
          simp only [formatCallArgs, hmap, formatCallName_eq]

/-- C7: the formatter renders every sequence of calls exactly as the
specification words it — split each name on `_`, capitalize the first
character of each token that does not parse as a number (numeric tokens
unchanged), join tokens with spaces, append `" (key: value, ...)"` when the
call has arguments with every value longer than 500 characters truncated to
its first 500 plus an ellipsis marker, and join per-call strings with `", "`;
in particular the call `{name: "get_youtube_transcript", args: {url:
"http://x"}}` yields `"Get Youtube Transcript (url: http://x)"`. -/
theorem claim_c7_formatter_refinement :
    (∀ calls, processFunctionCallsNames calls = summarizeSpec calls) ∧
    processFunctionCallsNames [⟨some "get_youtube_transcript", some [("url", "http://x")]⟩]
      = "Get Youtube Transcript (url: http://x)" := by
  constructor
  · intro calls
    unfold processFunctionCallsNames summarizeSpec
    rw [funext processOneCall_eq]
  · decide

/-- C8: the formatter is total on its input: the empty sequence yields `""`,
and a sequence all of whose calls lack a name also yields `""` (each such
call contributes an empty string that the final join excludes). -/
theorem claim_c8_formatter_degenerate :
    processFunctionCallsNames [] = "" ∧
    ∀ calls : List FunctionCallRec, (∀ tc ∈ calls, tc.name = none) →
      processFunctionCallsNames calls = "" := by
  refine ⟨rfl, ?_⟩
  intro calls h
  unfold processFunctionCallsNames
  have hfil : (calls.map processOneCall).filter (fun n => n != "") = [] := by
    induction calls with
    | nil => rfl
    | cons c cs ih =>
      have hc : c.name = none := h c (by simp)
      have hone : processOneCall c = "" := by
        obtain ⟨n, a⟩ := c
        cases n with
        | none => rfl
        | some s => simp at hc
      simp only [List.map_cons, List.filter_cons, hone]
      simpa using ih (fun tc htc => h tc (by simp [htc]))
  rw [hfil]
  rfl

/-- Witness for C8: a single nameless call (with arguments) still yields the
empty summary. -/
theorem claim_c8_formatter_degenerate_witness :
    processFunctionCallsNames [⟨none, some [("url", "http://x")]⟩] = "" :=
  claim_c8_formatter_degenerate.2 [⟨none, some [("url", "http://x")]⟩]
    (by intro tc htc; simp only [List.mem_singleton] at htc; subst htc; rfl)
